import Mathlib

/-!
A shallow embedding of the Bitcoin network-message codec layer
(src/network/message.rs and src/network/message_network.rs).

Bytes are modelled as natural numbers (well-formed streams carry values
0..255).  Decoders take the byte stream as a list and return the decoded
value together with the unconsumed tail, or a typed decode error.

The leaf consensus codec (the consensus::encode module of the crate: fixed-width
integers, variable-length integers, byte buffers, the checksummed-payload
container) and the domain payload structures (transactions, blocks,
addresses, filters, ...) are external collaborators of the two source files;
they are modelled from the specification, while everything in the two source
files is translated directly from the source.
-/

/-- A wire byte, modelled as a natural number (0..255 in well-formed streams). -/
abbrev Byte := Nat

/-- The decode-error type of the consensus codec (consensus::encode::Error),
restricted to the variants this layer produces. -/
inductive DecodeError where
  /-- Truncated input: the primitive codec ran out of bytes. -/
  | unexpectedEof : DecodeError
  /-- A declared size exceeds the global maximum buffer size. -/
  | oversizedVectorAllocation : (requested : Nat) → (max : Nat) → DecodeError
  /-- A structural parse failure, with its reason string. -/
  | parseFailed : (reason : String) → DecodeError
  /-- The checksum stored in a checksummed container does not match the data. -/
  | invalidChecksum : (expected : List Byte) → (actual : List Byte) → DecodeError
deriving DecidableEq

instance {ε α : Type} [DecidableEq ε] [DecidableEq α] : DecidableEq (Except ε α) := fun a b =>
  match a, b with
  | .ok x, .ok y =>
    if h : x = y then .isTrue (by rw [h]) else .isFalse (by intro hc; cases hc; exact h rfl)
  | .ok _, .error _ => .isFalse (by intro hc; cases hc)
  | .error _, .ok _ => .isFalse (by intro hc; cases hc)
  | .error x, .error y =>
    if h : x = y then .isTrue (by rw [h]) else .isFalse (by intro hc; cases hc; exact h rfl)

/-- A prefix-consuming decoder: given the byte stream, return the decoded
value and the unconsumed tail, or a decode error. -/
abbrev Decoder (α : Type) := List Byte → Except DecodeError (α × List Byte)

/-- Modelled from the spec: the primitive codec reads a single byte,
failing on truncated input. -/
def readU8 : Decoder Byte := fun bs =>
  match bs with
  | [] => .error .unexpectedEof
  | b :: rest => .ok (b, rest)

/-- Modelled from the spec: the primitive codec reads exactly n bytes,
failing on truncated input. -/
def readBytes : Nat → Decoder (List Byte)
  | 0 => fun bs => .ok ([], bs)
  | n + 1 => fun bs =>
    match bs with
    | [] => .error .unexpectedEof
    | b :: rest =>
      match readBytes n rest with
      | .ok (xs, rem) => .ok (b :: xs, rem)
      | .error e => .error e

/-- Modelled from the spec: little-endian encoding of an unsigned integer in
the given number of bytes (the primitive fixed-width integer codec). -/
def encodeUN (width : Nat) (n : Nat) : List Byte :=
  match width with
  | 0 => []
  | w + 1 => n % 256 :: encodeUN w (n / 256)

/-- Modelled from the spec: little-endian decoding of an unsigned integer of
the given number of bytes (the primitive fixed-width integer codec). -/
def decodeUN (width : Nat) : Decoder Nat := fun bs =>
  match width with
  | 0 => .ok (0, bs)
  | w + 1 =>
    match bs with
    | [] => .error .unexpectedEof
    | b :: rest =>
      match decodeUN w rest with
      | .ok (hi, rem) => .ok (b + 256 * hi, rem)
      | .error e => .error e

/-- The character values of a string literal, used to model Rust string
constants (all the protocol names are ASCII, where character values and
UTF-8 bytes coincide). -/
def strBytes (s : String) : List Byte := s.data.map Char.toNat

/-- Serializer for command string (Rust struct CommandString).  The text is
modelled as its list of character values. -/
structure CommandString where
  s : List Byte
deriving DecidableEq

/-- CommandString::try_from: returns an error if and only if the string is
larger than 12 in length; the error carries the offending string
(CommandStringError). -/
def CommandString.tryFrom (s : List Byte) : Except (List Byte) CommandString :=
  if s.length > 12 then .error s else .ok ⟨s⟩

/-- The UTF-8 encoding of one unicode scalar value, as Rust as_bytes lays
out each char of a String: one byte below 0x80, two below 0x800, three
below 0x10000, four otherwise. -/
def utf8EncodeChar (c : Nat) : List Byte :=
  if c < 0x80 then [c]
  else if c < 0x800 then [0xC0 + c / 64, 0x80 + c % 64]
  else if c < 0x10000 then [0xE0 + c / 4096, 0x80 + c / 64 % 64, 0x80 + c % 64]
  else [0xF0 + c / 262144, 0x80 + c / 4096 % 64, 0x80 + c / 64 % 64, 0x80 + c % 64]

/-- Encodable for CommandString: copy the UTF-8 bytes of the name
(self.0.as_bytes(), each stored character value laid out in UTF-8) into a
12-byte array of zeros and emit it (the source asserts the byte length is
at most 12).  For ASCII names the UTF-8 bytes coincide with the character
values. -/
def CommandString.consensusEncode (c : CommandString) : List Byte :=
  (c.s.map utf8EncodeChar).flatten
    ++ List.replicate (12 - ((c.s.map utf8EncodeChar).flatten).length) 0

/-- Decodable for CommandString: read a 12-byte array and keep, in order,
every byte whose value is greater than zero (the byte is an unsigned u8). -/
def CommandString.consensusDecode : Decoder CommandString := fun bs =>
  match readBytes 12 bs with
  | .error e => .error e
  | .ok (raw, rest) => .ok (⟨raw.filter (fun u => 0 < u)⟩, rest)

/-- Message rejection reason as a code (Rust enum RejectReason). -/
inductive RejectReason where
  | Malformed | Invalid | Obsolete | Duplicate
  | NonStandard | Dust | Fee | Checkpoint
deriving DecidableEq

/-- The discriminant byte of each RejectReason variant (its value in the
Rust enum declaration). -/
def RejectReason.toByte : RejectReason → Byte
  | .Malformed => 0x01
  | .Invalid => 0x10
  | .Obsolete => 0x11
  | .Duplicate => 0x12
  | .NonStandard => 0x40
  | .Dust => 0x41
  | .Fee => 0x42
  | .Checkpoint => 0x43

/-- Encodable for RejectReason: write the single discriminant byte. -/
def RejectReason.consensusEncode (r : RejectReason) : List Byte := [r.toByte]

/-- Decodable for RejectReason: read one byte and match it against the eight
known codes, failing with ParseFailed("unknown reject code") otherwise. -/
def RejectReason.consensusDecode : Decoder RejectReason := fun bs =>
  match readU8 bs with
  | .error e => .error e
  | .ok (b, rest) =>
    if b = 0x01 then .ok (.Malformed, rest)
    else if b = 0x10 then .ok (.Invalid, rest)
    else if b = 0x11 then .ok (.Obsolete, rest)
    else if b = 0x12 then .ok (.Duplicate, rest)
    else if b = 0x40 then .ok (.NonStandard, rest)
    else if b = 0x41 then .ok (.Dust, rest)
    else if b = 0x42 then .ok (.Fee, rest)
    else if b = 0x43 then .ok (.Checkpoint, rest)
    else .error (.parseFailed "unknown reject code")

/-- Modelled from the spec: the global maximum buffer-size constant of the
external codec (consensus::encode::MAX_VEC_SIZE of the reference
implementation, 4,000,000 bytes). -/
def MAX_VEC_SIZE : Nat := 4000000

/-- Modelled from the spec: the variable-length integer codec (VarInt),
encode side.  Width depends on magnitude: one byte below 0xFD, otherwise a
marker byte followed by a 2-, 4- or 8-byte little-endian integer. -/
def VarInt.consensusEncode (n : Nat) : List Byte :=
  if n < 0xFD then [n]
  else if n ≤ 0xFFFF then 0xFD :: encodeUN 2 n
  else if n ≤ 0xFFFFFFFF then 0xFE :: encodeUN 4 n
  else 0xFF :: encodeUN 8 n

/-- Modelled from the spec: the variable-length integer codec (VarInt),
decode side. -/
def VarInt.consensusDecode : Decoder Nat := fun bs =>
  match bs with
  | [] => .error .unexpectedEof
  | b :: rest =>
    if b = 0xFD then decodeUN 2 rest
    else if b = 0xFE then decodeUN 4 rest
    else if b = 0xFF then decodeUN 8 rest
    else .ok (b, rest)

/-- Modelled from the spec: the checksummed-payload container (CheckedData),
encode side: 4-byte little-endian length of the data, then the first 4 bytes
of the double hash of the data, then the data bytes verbatim.  The hash
function is an external collaborator, passed as a parameter. -/
def CheckedData.consensusEncode (hash : List Byte → List Byte) (data : List Byte) : List Byte :=
  encodeUN 4 data.length ++ (hash (hash data)).take 4 ++ data

/-- Modelled from the spec: the checksummed-payload container (CheckedData),
decode side: read the length; if it exceeds the global maximum buffer size,
fail with the oversized-allocation error before reading further; read the
4-byte checksum, then exactly length data bytes; recompute the double hash
of the data and compare its first 4 bytes with the stored checksum, failing
with a checksum error on mismatch; otherwise return the raw bytes. -/
def CheckedData.consensusDecode (hash : List Byte → List Byte) : Decoder (List Byte) := fun bs =>
  match decodeUN 4 bs with
  | .error e => .error e
  | .ok (len, r1) =>
    if len > MAX_VEC_SIZE then .error (.oversizedVectorAllocation len MAX_VEC_SIZE)
    else
      match readBytes 4 r1 with
      | .error e => .error e
      | .ok (checksum, r2) =>
        match readBytes len r2 with
        | .error e => .error e
        | .ok (data, r3) =>
          if (hash (hash data)).take 4 = checksum then .ok (data, r3)
          else .error (.invalidChecksum ((hash (hash data)).take 4) checksum)

/-- Modelled from the spec: the primitive codec for raw byte buffers
(consensus serialization of a plain byte vector), encode side: the spec
states the stored bytes are re-emitted verbatim, byte-for-byte. -/
def ByteBuffer.consensusEncode (bs : List Byte) : List Byte := bs

/-- Modelled from the spec: the primitive codec for raw byte buffers, decode
side: the buffer takes all the bytes of its (isolated, length-delimited)
cursor. -/
def ByteBuffer.consensusDecode : Decoder (List Byte) := fun bs => .ok (bs, [])

/-- The kinds of externally-defined payload structures appearing in the
payload union (each is an opaque encodable/decodable collaborator type:
VersionMessage, the address list, the inventory list, GetBlocksMessage,
GetHeadersMessage, Transaction, Block, BlockHeader, MerkleBlock, FilterLoad,
FilterAdd, GetCFilters, CFilter, GetCFHeaders, CFHeaders, GetCFCheckpt,
CFCheckpt, Reject, the AddrV2 list). -/
inductive PayloadKind where
  | version | addrList | invList | getblocks | getheaders | tx | block
  | blockHeader | merkleblock | filterload | filteradd | getcfilters
  | cfilter | getcfheaders | cfheaders | getcfcheckpt | cfcheckpt
  | reject | addrv2
deriving DecidableEq

/-- The bundle of external collaborator payload types with their structured
codecs, over which the envelope layer is parametric: one carrier type, one
encoder and one decoder per payload kind, plus the in-memory size of one
block-header record (mem::size_of, used by the headers special-case codec). -/
structure Collaborators where
  Ty : PayloadKind → Type
  enc : (k : PayloadKind) → Ty k → List Byte
  dec : (k : PayloadKind) → Decoder (Ty k)
  sizeofBlockHeader : Nat

/-- The collaborator contract from the spec: each structured codec consumes
exactly the bytes of its encoding from a shared cursor and returns the
original value, leaving trailing bytes untouched. -/
def Collaborators.RoundTrip (C : Collaborators) : Prop :=
  ∀ (k : PayloadKind) (v : C.Ty k) (rest : List Byte),
    C.dec k (C.enc k v ++ rest) = .ok (v, rest)

/-- The contract of the external double-hash: from the spec, the checksum is
the first 4 bytes of the double hash, so the double hash of any buffer has
at least 4 bytes. -/
def HashOK (hash : List Byte → List Byte) : Prop :=
  ∀ bs : List Byte, 4 ≤ (hash (hash bs)).length

/-- A network message payload (Rust enum NetworkMessage), parametric in the
external collaborator payload types.  Ping and Pong carry a u64 nonce
(modelled as a natural number below 2^64 in well-formed values), FeeFilter
an i64, Alert a raw byte vector, and Unknown the raw command name together
with the raw undecoded payload bytes. -/
inductive NetworkMessage (C : Collaborators) where
  | Version : C.Ty .version → NetworkMessage C
  | Verack : NetworkMessage C
  | Addr : C.Ty .addrList → NetworkMessage C
  | Inv : C.Ty .invList → NetworkMessage C
  | GetData : C.Ty .invList → NetworkMessage C
  | NotFound : C.Ty .invList → NetworkMessage C
  | GetBlocks : C.Ty .getblocks → NetworkMessage C
  | GetHeaders : C.Ty .getheaders → NetworkMessage C
  | MemPool : NetworkMessage C
  | Tx : C.Ty .tx → NetworkMessage C
  | Block : C.Ty .block → NetworkMessage C
  | Headers : List (C.Ty .blockHeader) → NetworkMessage C
  | SendHeaders : NetworkMessage C
  | GetAddr : NetworkMessage C
  | Ping : Nat → NetworkMessage C
  | Pong : Nat → NetworkMessage C
  | MerkleBlock : C.Ty .merkleblock → NetworkMessage C
  | FilterLoad : C.Ty .filterload → NetworkMessage C
  | FilterAdd : C.Ty .filteradd → NetworkMessage C
  | FilterClear : NetworkMessage C
  | GetCFilters : C.Ty .getcfilters → NetworkMessage C
  | CFilter : C.Ty .cfilter → NetworkMessage C
  | GetCFHeaders : C.Ty .getcfheaders → NetworkMessage C
  | CFHeaders : C.Ty .cfheaders → NetworkMessage C
  | GetCFCheckpt : C.Ty .getcfcheckpt → NetworkMessage C
  | CFCheckpt : C.Ty .cfcheckpt → NetworkMessage C
  | Alert : List Byte → NetworkMessage C
  | Reject : C.Ty .reject → NetworkMessage C
  | FeeFilter : Int → NetworkMessage C
  | WtxidRelay : NetworkMessage C
  | AddrV2 : C.Ty .addrv2 → NetworkMessage C
  | SendAddrV2 : NetworkMessage C
  | Unknown : (command : CommandString) → (payload : List Byte) → NetworkMessage C

/-- A network message envelope (Rust struct RawNetworkMessage): magic bytes
identifying the network, plus the payload. -/
structure RawNetworkMessage (C : Collaborators) where
  magic : Nat
  payload : NetworkMessage C

/-- NetworkMessage::cmd: the message command as a static string; returns
"unknown" for Unknown regardless of the actual command stored in it. -/
def NetworkMessage.cmd {C : Collaborators} : NetworkMessage C → List Byte
  | .Version _ => strBytes "version"
  | .Verack => strBytes "verack"
  | .Addr _ => strBytes "addr"
  | .Inv _ => strBytes "inv"
  | .GetData _ => strBytes "getdata"
  | .NotFound _ => strBytes "notfound"
  | .GetBlocks _ => strBytes "getblocks"
  | .GetHeaders _ => strBytes "getheaders"
  | .MemPool => strBytes "mempool"
  | .Tx _ => strBytes "tx"
  | .Block _ => strBytes "block"
  | .Headers _ => strBytes "headers"
  | .SendHeaders => strBytes "sendheaders"
  | .GetAddr => strBytes "getaddr"
  | .Ping _ => strBytes "ping"
  | .Pong _ => strBytes "pong"
  | .MerkleBlock _ => strBytes "merkleblock"
  | .FilterLoad _ => strBytes "filterload"
  | .FilterAdd _ => strBytes "filteradd"
  | .FilterClear => strBytes "filterclear"
  | .GetCFilters _ => strBytes "getcfilters"
  | .CFilter _ => strBytes "cfilter"
  | .GetCFHeaders _ => strBytes "getcfheaders"
  | .CFHeaders _ => strBytes "cfheaders"
  | .GetCFCheckpt _ => strBytes "getcfcheckpt"
  | .CFCheckpt _ => strBytes "cfcheckpt"
  | .Alert _ => strBytes "alert"
  | .Reject _ => strBytes "reject"
  | .FeeFilter _ => strBytes "feefilter"
  | .WtxidRelay => strBytes "wtxidrelay"
  | .AddrV2 _ => strBytes "addrv2"
  | .SendAddrV2 => strBytes "sendaddrv2"
  | .Unknown _ _ => strBytes "unknown"

/-- NetworkMessage::command: the CommandString for the message command; the
literally stored command for Unknown, and for every other variant the
command constructed from cmd via try_from.  The expect on the try_from
result (a panic in the source) is modelled by an empty-name fallback, proved
unreachable below. -/
def NetworkMessage.command {C : Collaborators} (m : NetworkMessage C) : CommandString :=
  match m with
  | .Unknown c _ => c
  | _ =>
    match CommandString.tryFrom m.cmd with
    | .ok c => c
    | .error _ => ⟨[]⟩

/-- RawNetworkMessage::cmd delegates to the payload. -/
def RawNetworkMessage.cmd {C : Collaborators} (m : RawNetworkMessage C) : List Byte :=
  m.payload.cmd

/-- RawNetworkMessage::command delegates to the payload. -/
def RawNetworkMessage.command {C : Collaborators} (m : RawNetworkMessage C) : CommandString :=
  m.payload.command

/-- Encodable for HeaderSerializationWrapper: the variable-length count of
headers, then for each header its structured encoding followed by one
literal zero byte. -/
def HeaderSerializationWrapper.consensusEncode (C : Collaborators)
    (hs : List (C.Ty .blockHeader)) : List Byte :=
  VarInt.consensusEncode hs.length ++ (hs.map (fun h => C.enc .blockHeader h ++ [0])).flatten

/-- The per-header loop of Decodable for HeaderDeserializationWrapper:
decode one header, then read one byte and fail with
ParseFailed("Headers message should not contain transactions") if that byte
is not exactly zero, for the given number of iterations. -/
def decodeHeadersLoop (C : Collaborators) : Nat → Decoder (List (C.Ty .blockHeader))
  | 0 => fun bs => .ok ([], bs)
  | n + 1 => fun bs =>
    match C.dec .blockHeader bs with
    | .error e => .error e
    | .ok (h, r1) =>
      match readU8 r1 with
      | .error e => .error e
      | .ok (b, r2) =>
        if b ≠ 0 then .error (.parseFailed "Headers message should not contain transactions")
        else
          match decodeHeadersLoop C n r2 with
          | .error e => .error e
          | .ok (t, r3) => .ok (h :: t, r3)

/-- Decodable for HeaderDeserializationWrapper: read the count; multiply it
by the size of one block-header record with an overflow check (usize
arithmetic, modelled as 64-bit, failing with ParseFailed("Invalid length")
on overflow); fail with the oversized-allocation error, carrying the
requested size and the maximum, when the product exceeds the global maximum
buffer size; otherwise run the per-header loop. -/
def HeaderDeserializationWrapper.consensusDecode (C : Collaborators) :
    Decoder (List (C.Ty .blockHeader)) := fun bs =>
  match VarInt.consensusDecode bs with
  | .error e => .error e
  | .ok (len, r1) =>
    if len * C.sizeofBlockHeader ≥ 2 ^ 64 then .error (.parseFailed "Invalid length")
    else if len * C.sizeofBlockHeader > MAX_VEC_SIZE then
      .error (.oversizedVectorAllocation (len * C.sizeofBlockHeader) MAX_VEC_SIZE)
    else decodeHeadersLoop C len r1

/-- The per-variant payload serialization selected by the Encodable match of
RawNetworkMessage: each structured variant serializes its inner value with
its collaborator codec; Ping, Pong and FeeFilter use the primitive
fixed-width integer codec (an i64 is encoded as its 64-bit twos
complement representation); Alert and Unknown use the raw byte-buffer codec; the headers
variant uses the header serialization wrapper; the seven content-free
variants serialize to an empty byte vector. -/
def NetworkMessage.payloadBytes {C : Collaborators} : NetworkMessage C → List Byte
  | .Version v => C.enc .version v
  | .Addr v => C.enc .addrList v
  | .Inv v => C.enc .invList v
  | .GetData v => C.enc .invList v
  | .NotFound v => C.enc .invList v
  | .GetBlocks v => C.enc .getblocks v
  | .GetHeaders v => C.enc .getheaders v
  | .Tx v => C.enc .tx v
  | .Block v => C.enc .block v
  | .Headers hs => HeaderSerializationWrapper.consensusEncode C hs
  | .Ping n => encodeUN 8 n
  | .Pong n => encodeUN 8 n
  | .MerkleBlock v => C.enc .merkleblock v
  | .FilterLoad v => C.enc .filterload v
  | .FilterAdd v => C.enc .filteradd v
  | .GetCFilters v => C.enc .getcfilters v
  | .CFilter v => C.enc .cfilter v
  | .GetCFHeaders v => C.enc .getcfheaders v
  | .CFHeaders v => C.enc .cfheaders v
  | .GetCFCheckpt v => C.enc .getcfcheckpt v
  | .CFCheckpt v => C.enc .cfcheckpt v
  | .Alert bs => ByteBuffer.consensusEncode bs
  | .Reject v => C.enc .reject v
  | .FeeFilter i => encodeUN 8 (i % (2 ^ 64)).toNat
  | .Verack => []
  | .SendHeaders => []
  | .MemPool => []
  | .GetAddr => []
  | .WtxidRelay => []
  | .FilterClear => []
  | .SendAddrV2 => []
  | .AddrV2 v => C.enc .addrv2 v
  | .Unknown _ p => ByteBuffer.consensusEncode p

/-- Encodable for RawNetworkMessage: the magic (4-byte little-endian), then
the command string of the payload, then the checksummed container wrapping
the variant-specific payload serialization. -/
def RawNetworkMessage.consensusEncode (hash : List Byte → List Byte) {C : Collaborators}
    (m : RawNetworkMessage C) : List Byte :=
  encodeUN 4 m.magic ++ CommandString.consensusEncode m.command
    ++ CheckedData.consensusEncode hash m.payload.payloadBytes

/-- Run a collaborator decoder on the isolated payload cursor and wrap its
result in a payload constructor; bytes it leaves unconsumed are dropped
(the cursor is discarded after the match in the source). -/
def runPayloadDec {C : Collaborators} {α : Type} (d : Decoder α)
    (mk : α → NetworkMessage C) (data : List Byte) : Except DecodeError (NetworkMessage C) :=
  match d data with
  | .ok (v, _) => .ok (mk v)
  | .error e => .error e

/-- The decode dispatch of Decodable for RawNetworkMessage: select the
structural decoder by exact match on the decoded command name, in source
order; no match produces the Unknown variant holding the command and the
full raw payload bytes. -/
def decodeDispatch (C : Collaborators) (cmd : CommandString) (data : List Byte) :
    Except DecodeError (NetworkMessage C) :=
  if cmd.s = strBytes "version" then runPayloadDec (C.dec .version) .Version data
  else if cmd.s = strBytes "verack" then .ok .Verack
  else if cmd.s = strBytes "addr" then runPayloadDec (C.dec .addrList) .Addr data
  else if cmd.s = strBytes "inv" then runPayloadDec (C.dec .invList) .Inv data
  else if cmd.s = strBytes "getdata" then runPayloadDec (C.dec .invList) .GetData data
  else if cmd.s = strBytes "notfound" then runPayloadDec (C.dec .invList) .NotFound data
  else if cmd.s = strBytes "getblocks" then runPayloadDec (C.dec .getblocks) .GetBlocks data
  else if cmd.s = strBytes "getheaders" then runPayloadDec (C.dec .getheaders) .GetHeaders data
  else if cmd.s = strBytes "mempool" then .ok .MemPool
  else if cmd.s = strBytes "block" then runPayloadDec (C.dec .block) .Block data
  else if cmd.s = strBytes "headers" then
    runPayloadDec (HeaderDeserializationWrapper.consensusDecode C) .Headers data
  else if cmd.s = strBytes "sendheaders" then .ok .SendHeaders
  else if cmd.s = strBytes "getaddr" then .ok .GetAddr
  else if cmd.s = strBytes "ping" then runPayloadDec (decodeUN 8) .Ping data
  else if cmd.s = strBytes "pong" then runPayloadDec (decodeUN 8) .Pong data
  else if cmd.s = strBytes "merkleblock" then
    runPayloadDec (C.dec .merkleblock) .MerkleBlock data
  else if cmd.s = strBytes "filterload" then runPayloadDec (C.dec .filterload) .FilterLoad data
  else if cmd.s = strBytes "filteradd" then runPayloadDec (C.dec .filteradd) .FilterAdd data
  else if cmd.s = strBytes "filterclear" then .ok .FilterClear
  else if cmd.s = strBytes "tx" then runPayloadDec (C.dec .tx) .Tx data
  else if cmd.s = strBytes "getcfilters" then
    runPayloadDec (C.dec .getcfilters) .GetCFilters data
  else if cmd.s = strBytes "cfilter" then runPayloadDec (C.dec .cfilter) .CFilter data
  else if cmd.s = strBytes "getcfheaders" then
    runPayloadDec (C.dec .getcfheaders) .GetCFHeaders data
  else if cmd.s = strBytes "cfheaders" then runPayloadDec (C.dec .cfheaders) .CFHeaders data
  else if cmd.s = strBytes "getcfcheckpt" then
    runPayloadDec (C.dec .getcfcheckpt) .GetCFCheckpt data
  else if cmd.s = strBytes "cfcheckpt" then runPayloadDec (C.dec .cfcheckpt) .CFCheckpt data
  else if cmd.s = strBytes "reject" then runPayloadDec (C.dec .reject) .Reject data
  else if cmd.s = strBytes "alert" then runPayloadDec ByteBuffer.consensusDecode .Alert data
  else if cmd.s = strBytes "feefilter" then
    runPayloadDec (fun bs =>
      match decodeUN 8 bs with
      | .ok (n, rest) =>
        .ok ((if n < 2 ^ 63 then (n : Int) else (n : Int) - 2 ^ 64), rest)
      | .error e => .error e) .FeeFilter data
  else if cmd.s = strBytes "wtxidrelay" then .ok .WtxidRelay
  else if cmd.s = strBytes "addrv2" then runPayloadDec (C.dec .addrv2) .AddrV2 data
  else if cmd.s = strBytes "sendaddrv2" then .ok .SendAddrV2
  else .ok (.Unknown cmd data)

/-- Decodable for RawNetworkMessage: the magic via the primitive codec, the
command string, the raw payload bytes via the checksummed container, then
the payload via the dispatch applied to the isolated payload buffer. -/
def RawNetworkMessage.consensusDecode (hash : List Byte → List Byte) (C : Collaborators) :
    Decoder (RawNetworkMessage C) := fun bs =>
  match decodeUN 4 bs with
  | .error e => .error e
  | .ok (magic, r1) =>
    match CommandString.consensusDecode r1 with
    | .error e => .error e
    | .ok (cmd, r2) =>
      match CheckedData.consensusDecode hash r2 with
      | .error e => .error e
      | .ok (data, r3) =>
        match decodeDispatch C cmd data with
        | .error e => .error e
        | .ok payload => .ok (⟨magic, payload⟩, r3)

/-- The command names matched by the decode dispatch, in source order. -/
def knownCommands : List (List Byte) :=
  [strBytes "version", strBytes "verack", strBytes "addr", strBytes "inv",
   strBytes "getdata", strBytes "notfound", strBytes "getblocks", strBytes "getheaders",
   strBytes "mempool", strBytes "block", strBytes "headers", strBytes "sendheaders",
   strBytes "getaddr", strBytes "ping", strBytes "pong", strBytes "merkleblock",
   strBytes "filterload", strBytes "filteradd", strBytes "filterclear", strBytes "tx",
   strBytes "getcfilters", strBytes "cfilter", strBytes "getcfheaders", strBytes "cfheaders",
   strBytes "getcfcheckpt", strBytes "cfcheckpt", strBytes "reject", strBytes "alert",
   strBytes "feefilter", strBytes "wtxidrelay", strBytes "addrv2", strBytes "sendaddrv2"]

/-- Representability conditions on a payload value, under which the
envelope round-trips: the u64 nonces of Ping and Pong are below 2 ^ 64; the
i64 of FeeFilter is within the signed 64-bit range; the headers size gate
(count times record size) is within the global maximum; the stored command
of Unknown has at most 12 strictly positive ASCII characters (values 1 to
127, where one character is one wire byte both ways) and is not one of the
recognized command names. -/
def WFPayload {C : Collaborators} : NetworkMessage C → Prop
  | .Ping n => n < 2 ^ 64
  | .Pong n => n < 2 ^ 64
  | .FeeFilter i => -(2 ^ 63) ≤ i ∧ i < 2 ^ 63
  | .Headers hs => hs.length * C.sizeofBlockHeader ≤ MAX_VEC_SIZE
  | .Unknown c _ => c.s.length ≤ 12 ∧ (∀ b ∈ c.s, 0 < b ∧ b < 128) ∧ c.s ∉ knownCommands
  | _ => True

/-- A concrete collaborator bundle for evaluating the envelope codec on
closed inputs: every external payload type is the unit type with an empty
encoding and a decoder that consumes nothing, and a block-header record
measures 80 bytes (its in-memory size in the reference implementation). -/
def trivialCollaborators : Collaborators where
  Ty := fun _ => Unit
  enc := fun _ _ => []
  dec := fun _ bs => .ok ((), bs)
  sizeofBlockHeader := 80

/-- The trivial collaborators satisfy the exact-consumption contract. -/
theorem trivialCollaborators_roundTrip : trivialCollaborators.RoundTrip := by
  intro k v rest
  cases v
  rfl

/-- A concrete stand-in for the external double hash, for evaluating the
envelope codec on closed inputs: every checksum is four zero bytes. -/
def zeroHash : List Byte → List Byte := fun _ => [0, 0, 0, 0]

/-- The zero hash satisfies the 4-byte-checksum contract. -/
theorem zeroHash_hashOK : HashOK zeroHash := fun _ => Nat.le.refl

/-- Reading back as many bytes as a list has returns exactly that list and
the trailing bytes. -/
theorem readBytes_append (xs rest : List Byte) :
    readBytes xs.length (xs ++ rest) = .ok (xs, rest) := by
  induction xs with
  | nil => rfl
  | cons b t ih => simp [readBytes, ih]

/-- A fixed-width little-endian encoding has exactly its width in bytes. -/
theorem encodeUN_length (w n : Nat) : (encodeUN w n).length = w := by
  induction w generalizing n with
  | zero => rfl
  | succ w ih => simp [encodeUN, ih]

/-- Reading back a list whose length is known to be n returns exactly that
list and the trailing bytes. -/
theorem readBytes_exact (n : Nat) (xs rest : List Byte) (h : xs.length = n) :
    readBytes n (xs ++ rest) = .ok (xs, rest) := by
  subst h
  exact readBytes_append xs rest

/-- Round trip of the fixed-width little-endian integer codec: decoding the
encoding of n in w bytes yields n reduced modulo 256 ^ w, with the trailing
bytes untouched. -/
theorem decodeUN_encodeUN (w n : Nat) (rest : List Byte) :
    decodeUN w (encodeUN w n ++ rest) = .ok (n % 256 ^ w, rest) := by
  induction w generalizing n with
  | zero => simp [decodeUN, encodeUN, Nat.mod_one]
  | succ w ih =>
    simp only [encodeUN, decodeUN, List.cons_append, ih (n / 256)]
    rw [Nat.pow_succ', Nat.mod_mul]

/-- Round trip of the fixed-width codec for values within range. -/
theorem decodeUN_encodeUN_of_lt (w n : Nat) (hn : n < 256 ^ w) (rest : List Byte) :
    decodeUN w (encodeUN w n ++ rest) = .ok (n, rest) := by
  rw [decodeUN_encodeUN, Nat.mod_eq_of_lt hn]

/-- Round trip of the variable-length integer codec for values representable
in 64 bits. -/
theorem varintDecode_cons (b : Byte) (rest : List Byte) :
    VarInt.consensusDecode (b :: rest)
      = if b = 0xFD then decodeUN 2 rest
        else if b = 0xFE then decodeUN 4 rest
        else if b = 0xFF then decodeUN 8 rest
        else .ok (b, rest) := rfl

theorem varint_decode_encode (n : Nat) (hn : n < 2 ^ 64) (rest : List Byte) :
    VarInt.consensusDecode (VarInt.consensusEncode n ++ rest) = .ok (n, rest) := by
  by_cases h1 : n < 0xFD
  · have e : VarInt.consensusEncode n = [n] := by simp [VarInt.consensusEncode, h1]
    have ne1 : ¬(n = 0xFD) := by omega
    have ne2 : ¬(n = 0xFE) := by omega
    have ne3 : ¬(n = 0xFF) := by omega
    rw [e, List.singleton_append, varintDecode_cons, if_neg ne1, if_neg ne2, if_neg ne3]
  · by_cases h2 : n ≤ 0xFFFF
    · have e : VarInt.consensusEncode n = 0xFD :: encodeUN 2 n := by
        simp [VarInt.consensusEncode, h1, h2]
      have hb : n < 256 ^ 2 := by norm_num; omega
      rw [e, List.cons_append, varintDecode_cons, if_pos rfl,
        decodeUN_encodeUN_of_lt 2 n hb]
    · by_cases h3 : n ≤ 0xFFFFFFFF
      · have e : VarInt.consensusEncode n = 0xFE :: encodeUN 4 n := by
          simp [VarInt.consensusEncode, h1, h2, h3]
        have hb : n < 256 ^ 4 := by norm_num; omega
        have ne1 : ¬((0xFE : Byte) = 0xFD) := by decide
        rw [e, List.cons_append, varintDecode_cons, if_neg ne1, if_pos rfl,
          decodeUN_encodeUN_of_lt 4 n hb]
      · have e : VarInt.consensusEncode n = 0xFF :: encodeUN 8 n := by
          simp [VarInt.consensusEncode, h1, h2, h3]
        have hb : n < 256 ^ 8 := by norm_num; omega
        have ne1 : ¬((0xFF : Byte) = 0xFD) := by decide
        have ne2 : ¬((0xFF : Byte) = 0xFE) := by decide
        rw [e, List.cons_append, varintDecode_cons, if_neg ne1, if_neg ne2,
          if_pos rfl, decodeUN_encodeUN_of_lt 8 n hb]

/-- An ASCII character value is its own one-byte UTF-8 encoding. -/
theorem utf8EncodeChar_ascii (b : Byte) (h : b < 128) : utf8EncodeChar b = [b] := by
  unfold utf8EncodeChar
  rw [if_pos h]

/-- The UTF-8 bytes of an all-ASCII character sequence are the character
values themselves. -/
theorem utf8_flatten_ascii (s : List Byte) (h : ∀ b ∈ s, b < 128) :
    (s.map utf8EncodeChar).flatten = s := by
  induction s with
  | nil => rfl
  | cons b t ih =>
    simp only [List.map_cons, List.flatten_cons]
    rw [utf8EncodeChar_ascii b (h b (by simp)), ih (fun x hx => h x (by simp [hx]))]
    rfl

/-- Round trip of the command-string codec for names of at most 12 strictly
positive ASCII characters: the padded 12-byte block decodes back to the
same name. -/
theorem commandString_decode_encode (s : List Byte) (hpos : ∀ b ∈ s, 0 < b)
    (hascii : ∀ b ∈ s, b < 128) (hlen : s.length ≤ 12) (rest : List Byte) :
    CommandString.consensusDecode (CommandString.consensusEncode ⟨s⟩ ++ rest)
      = .ok (⟨s⟩, rest) := by
  have henc : CommandString.consensusEncode ⟨s⟩ = s ++ List.replicate (12 - s.length) 0 := by
    simp only [CommandString.consensusEncode]
    rw [utf8_flatten_ascii s hascii]
  rw [henc]
  have hl : (s ++ List.replicate (12 - s.length) 0).length = 12 := by
    simp [List.length_append, List.length_replicate]
    omega
  have hr : readBytes 12 (s ++ List.replicate (12 - s.length) 0 ++ rest)
      = .ok (s ++ List.replicate (12 - s.length) 0, rest) := readBytes_exact 12 _ rest hl
  have hf : (s ++ List.replicate (12 - s.length) 0).filter (fun u => 0 < u) = s := by
    rw [List.filter_append, List.filter_replicate]
    have hz : ¬((decide ((0 : Nat) < 0)) = true) := by decide
    rw [if_neg hz, List.append_nil]
    exact List.filter_eq_self.mpr (fun a ha => by simpa using hpos a ha)
  simp only [CommandString.consensusDecode, hr, hf]

/-- Round trip of the checksummed-payload container: for any double hash
with 4-byte checksums and any data within the global size bound, decoding
the encoding returns the raw data and the trailing bytes. -/
theorem checkedData_decode_encode (hash : List Byte → List Byte) (hHash : HashOK hash)
    (data : List Byte) (hlen : data.length ≤ MAX_VEC_SIZE) (rest : List Byte) :
    CheckedData.consensusDecode hash (CheckedData.consensusEncode hash data ++ rest)
      = .ok (data, rest) := by
  have hlen4 : data.length ≤ 4000000 := hlen
  have h1 : decodeUN 4 (encodeUN 4 data.length ++ ((hash (hash data)).take 4 ++ (data ++ rest)))
      = .ok (data.length, (hash (hash data)).take 4 ++ (data ++ rest)) :=
    decodeUN_encodeUN_of_lt 4 data.length (by norm_num; omega) _
  have htake : ((hash (hash data)).take 4).length = 4 := by
    rw [List.length_take]
    exact Nat.min_eq_left (hHash data)
  have h2 : readBytes 4 ((hash (hash data)).take 4 ++ (data ++ rest))
      = .ok ((hash (hash data)).take 4, data ++ rest) := readBytes_exact 4 _ _ htake
  have h3 : readBytes data.length (data ++ rest) = .ok (data, rest) :=
    readBytes_append data rest
  have hgt : ¬(data.length > MAX_VEC_SIZE) := by omega
  simp only [CheckedData.consensusEncode, CheckedData.consensusDecode, List.append_assoc, h1]
  rw [if_neg hgt]
  simp only [h2, h3]
  simp

/-- Round trip of the command-string codec stated on a CommandString value. -/
theorem commandString_decode_encode_cs (c : CommandString) (hpos : ∀ b ∈ c.s, 0 < b)
    (hascii : ∀ b ∈ c.s, b < 128) (hlen : c.s.length ≤ 12) (rest : List Byte) :
    CommandString.consensusDecode (CommandString.consensusEncode c ++ rest)
      = .ok (c, rest) := by
  obtain ⟨s⟩ := c
  exact commandString_decode_encode s hpos hascii hlen rest

/-- Round trip of the per-header loop: decoding back as many headers as were
encoded (each encoding followed by its zero marker byte) returns the same
header list and the trailing bytes. -/
theorem decodeHeadersLoop_encode (C : Collaborators) (hC : C.RoundTrip)
    (hs : List (C.Ty .blockHeader)) (rest : List Byte) :
    decodeHeadersLoop C hs.length
      ((hs.map (fun h => C.enc .blockHeader h ++ [0])).flatten ++ rest) = .ok (hs, rest) := by
  induction hs with
  | nil => rfl
  | cons h t ih =>
    have hd : C.dec .blockHeader
        (C.enc .blockHeader h
          ++ (0 :: ((t.map (fun h => C.enc .blockHeader h ++ [0])).flatten ++ rest)))
        = .ok (h, 0 :: ((t.map (fun h => C.enc .blockHeader h ++ [0])).flatten ++ rest)) :=
      hC .blockHeader h _
    have hz : ¬((0 : Byte) ≠ 0) := by decide
    simp only [List.map_cons, List.flatten_cons, List.length_cons, List.append_assoc,
      List.cons_append, List.nil_append, decodeHeadersLoop, hd, readU8, if_neg hz, ih]

/-- The encoded header list carries at least one byte per header (the zero
marker), so the header count is bounded by the encoding length. -/
theorem count_le_flatten (C : Collaborators) (hs : List (C.Ty .blockHeader)) :
    hs.length ≤ ((hs.map (fun h => C.enc .blockHeader h ++ [0])).flatten).length := by
  induction hs with
  | nil => simp
  | cons h t ih =>
    simp only [List.map_cons, List.flatten_cons, List.length_append, List.length_cons]
    simp at ih ⊢
    omega

/-- Round trip of the headers special-case codec: when the count and the
size gate are within bounds, decoding the wrapper encoding returns the
header list and the trailing bytes. -/
theorem headersWrapper_decode_encode (C : Collaborators) (hC : C.RoundTrip)
    (hs : List (C.Ty .blockHeader)) (hcount : hs.length < 2 ^ 64)
    (hsize : hs.length * C.sizeofBlockHeader ≤ MAX_VEC_SIZE) (rest : List Byte) :
    HeaderDeserializationWrapper.consensusDecode C
      (HeaderSerializationWrapper.consensusEncode C hs ++ rest) = .ok (hs, rest) := by
  have hv := varint_decode_encode hs.length hcount
    ((hs.map (fun h => C.enc .blockHeader h ++ [0])).flatten ++ rest)
  have hsize4 : hs.length * C.sizeofBlockHeader ≤ 4000000 := hsize
  have hov : ¬(hs.length * C.sizeofBlockHeader ≥ 2 ^ 64) := by omega
  have hmx : ¬(hs.length * C.sizeofBlockHeader > MAX_VEC_SIZE) := by omega
  simp only [HeaderSerializationWrapper.consensusEncode,
    HeaderDeserializationWrapper.consensusDecode, List.append_assoc, hv,
    if_neg hov, if_neg hmx]
  exact decodeHeadersLoop_encode C hC hs rest

/-- A command name outside the recognized list falls through the whole
dispatch and produces the Unknown variant holding the command and the full
raw payload bytes. -/
theorem decodeDispatch_unknown (C : Collaborators) (c : CommandString)
    (h : c.s ∉ knownCommands) (data : List Byte) :
    decodeDispatch C c data = .ok (.Unknown c data) := by
  simp only [knownCommands, List.mem_cons, List.not_mem_nil, or_false, not_or] at h
  obtain ⟨h1, h2, h3, h4, h5, h6, h7, h8, h9, h10, h11, h12, h13, h14, h15, h16, h17,
    h18, h19, h20, h21, h22, h23, h24, h25, h26, h27, h28, h29, h30, h31, h32⟩ := h
  simp only [decodeDispatch, if_neg h1, if_neg h2, if_neg h3, if_neg h4, if_neg h5,
    if_neg h6, if_neg h7, if_neg h8, if_neg h9, if_neg h10, if_neg h11, if_neg h12,
    if_neg h13, if_neg h14, if_neg h15, if_neg h16, if_neg h17, if_neg h18, if_neg h19,
    if_neg h20, if_neg h21, if_neg h22, if_neg h23, if_neg h24, if_neg h25, if_neg h26,
    if_neg h27, if_neg h28, if_neg h29, if_neg h30, if_neg h31, if_neg h32]

/-- Helper for reading the round-trip contract without a tail. -/
theorem roundTrip_nil {C : Collaborators} (hC : C.RoundTrip) (k : PayloadKind) (v : C.Ty k) :
    C.dec k (C.enc k v) = .ok (v, []) := by
  have h := hC k v []
  rwa [List.append_nil] at h

/-- Wrapping a successful collaborator decode in a payload constructor. -/
theorem runPayloadDec_ok {C : Collaborators} {α : Type} (d : Decoder α)
    (mk : α → NetworkMessage C) {data : List Byte} {v : α} {rest : List Byte}
    (h : d data = .ok (v, rest)) : runPayloadDec d mk data = .ok (mk v) := by
  simp only [runPayloadDec, h]

/-- Reading back a 64-bit twos-complement encoding recovers the signed
value for every i64 in range. -/
theorem feefilter_value_eq (i : Int) (h1 : -(2 ^ 63) ≤ i) (h2 : i < 2 ^ 63) :
    (if (i % (2 ^ 64)).toNat < 2 ^ 63 then (((i % (2 ^ 64)).toNat : Nat) : Int)
     else (((i % (2 ^ 64)).toNat : Nat) : Int) - 2 ^ 64) = i := by
  by_cases hc : (i % (2 ^ 64)).toNat < 2 ^ 63
  · rw [if_pos hc]
    omega
  · rw [if_neg hc]
    omega

/-- Decoding an envelope assembled from its three encoded parts: given a
command of at most 12 strictly positive bytes, payload data within the
global size bound, and a dispatch result for that command and data, the
envelope decoder returns the assembled message and consumes everything. -/
theorem envelope_decode_parts (hash : List Byte → List Byte) (hHash : HashOK hash)
    (C : Collaborators) (magic : Nat) (hmagic : magic < 2 ^ 32)
    (c : CommandString) (hpos : ∀ b ∈ c.s, 0 < b) (hascii : ∀ b ∈ c.s, b < 128)
    (hclen : c.s.length ≤ 12)
    (data : List Byte) (hdata : data.length ≤ MAX_VEC_SIZE)
    (msg : NetworkMessage C) (hdisp : decodeDispatch C c data = .ok msg) :
    RawNetworkMessage.consensusDecode hash C
      (encodeUN 4 magic ++ (CommandString.consensusEncode c
        ++ CheckedData.consensusEncode hash data)) = .ok (⟨magic, msg⟩, []) := by
  have h1 : decodeUN 4 (encodeUN 4 magic ++ (CommandString.consensusEncode c
      ++ CheckedData.consensusEncode hash data))
      = .ok (magic, CommandString.consensusEncode c ++ CheckedData.consensusEncode hash data) :=
    decodeUN_encodeUN_of_lt 4 magic (by norm_num; omega) _
  have h2 := commandString_decode_encode_cs c hpos hascii hclen
    (CheckedData.consensusEncode hash data)
  have h3 := checkedData_decode_encode hash hHash data hdata []
  rw [List.append_nil] at h3
  simp only [RawNetworkMessage.consensusDecode, h1, h2, h3, hdisp]

/-- The feefilter arm of the decode dispatch. -/
theorem decodeDispatch_feefilter (C : Collaborators) (data : List Byte) :
    decodeDispatch C ⟨strBytes "feefilter"⟩ data
      = runPayloadDec (fun bs =>
          match decodeUN 8 bs with
          | .ok (n, rest) =>
            .ok ((if n < 2 ^ 63 then (n : Int) else (n : Int) - 2 ^ 64), rest)
          | .error e => .error e) NetworkMessage.FeeFilter data := rfl

set_option maxHeartbeats 2000000 in
/-- C1 (amended): the envelope round trip.  For collaborator codecs
satisfying the exact-consumption contract, a double hash with 4-byte
checksums, a network id below 2 ^ 32, a payload whose serialized body fits
the global size bound and whose numeric fields are representable, and, for
Unknown, a stored command of at most 12 strictly positive ASCII characters
(values 1 to 127) that is not one of the recognized command names, decoding
the encoding of the envelope returns an equal envelope and consumes the
whole encoding.  ASCII is required because the command is written to the
wire as UTF-8 bytes but decoded one character per raw byte. -/
theorem rawNetworkMessage_decode_encode (hash : List Byte → List Byte) (C : Collaborators)
    (hHash : HashOK hash) (hC : C.RoundTrip) (m : RawNetworkMessage C)
    (hmagic : m.magic < 2 ^ 32) (hsize : m.payload.payloadBytes.length ≤ MAX_VEC_SIZE)
    (hwf : WFPayload m.payload) :
    RawNetworkMessage.consensusDecode hash C (RawNetworkMessage.consensusEncode hash m)
      = .ok (m, []) := by
  obtain ⟨magic, msg⟩ := m
  have henc : RawNetworkMessage.consensusEncode hash (⟨magic, msg⟩ : RawNetworkMessage C)
      = encodeUN 4 magic ++ (CommandString.consensusEncode msg.command
        ++ CheckedData.consensusEncode hash msg.payloadBytes) := by
    simp [RawNetworkMessage.consensusEncode, RawNetworkMessage.command, List.append_assoc]
  rw [henc]
  have hmagic' : magic < 2 ^ 32 := hmagic
  cases msg with
  | Version v =>
    refine envelope_decode_parts hash hHash C magic hmagic' ⟨strBytes "version"⟩ (by decide) (by decide) (by decide) _ hsize _ ?_
    exact runPayloadDec_ok _ NetworkMessage.Version (roundTrip_nil hC .version v)
  | Verack =>
    exact envelope_decode_parts hash hHash C magic hmagic' ⟨strBytes "verack"⟩ (by decide) (by decide) (by decide) _ hsize _ rfl
  | Addr v =>
    refine envelope_decode_parts hash hHash C magic hmagic' ⟨strBytes "addr"⟩ (by decide) (by decide) (by decide) _ hsize _ ?_
    exact runPayloadDec_ok _ NetworkMessage.Addr (roundTrip_nil hC .addrList v)
  | Inv v =>
    refine envelope_decode_parts hash hHash C magic hmagic' ⟨strBytes "inv"⟩ (by decide) (by decide) (by decide) _ hsize _ ?_
    exact runPayloadDec_ok _ NetworkMessage.Inv (roundTrip_nil hC .invList v)
  | GetData v =>
    refine envelope_decode_parts hash hHash C magic hmagic' ⟨strBytes "getdata"⟩ (by decide) (by decide) (by decide) _ hsize _ ?_
    exact runPayloadDec_ok _ NetworkMessage.GetData (roundTrip_nil hC .invList v)
  | NotFound v =>
    refine envelope_decode_parts hash hHash C magic hmagic' ⟨strBytes "notfound"⟩ (by decide) (by decide) (by decide) _ hsize _ ?_
    exact runPayloadDec_ok _ NetworkMessage.NotFound (roundTrip_nil hC .invList v)
  | GetBlocks v =>
    refine envelope_decode_parts hash hHash C magic hmagic' ⟨strBytes "getblocks"⟩ (by decide) (by decide) (by decide) _ hsize _ ?_
    exact runPayloadDec_ok _ NetworkMessage.GetBlocks (roundTrip_nil hC .getblocks v)
  | GetHeaders v =>
    refine envelope_decode_parts hash hHash C magic hmagic' ⟨strBytes "getheaders"⟩ (by decide) (by decide) (by decide) _ hsize _ ?_
    exact runPayloadDec_ok _ NetworkMessage.GetHeaders (roundTrip_nil hC .getheaders v)
  | MemPool =>
    exact envelope_decode_parts hash hHash C magic hmagic' ⟨strBytes "mempool"⟩ (by decide) (by decide) (by decide) _ hsize _ rfl
  | Tx v =>
    refine envelope_decode_parts hash hHash C magic hmagic' ⟨strBytes "tx"⟩ (by decide) (by decide) (by decide) _ hsize _ ?_
    exact runPayloadDec_ok _ NetworkMessage.Tx (roundTrip_nil hC .tx v)
  | Block v =>
    refine envelope_decode_parts hash hHash C magic hmagic' ⟨strBytes "block"⟩ (by decide) (by decide) (by decide) _ hsize _ ?_
    exact runPayloadDec_ok _ NetworkMessage.Block (roundTrip_nil hC .block v)
  | Headers hs =>
    refine envelope_decode_parts hash hHash C magic hmagic' ⟨strBytes "headers"⟩ (by decide) (by decide) (by decide) _ hsize _ ?_
    have hsz : hs.length * C.sizeofBlockHeader ≤ MAX_VEC_SIZE := hwf
    have hsz4 : hs.length * C.sizeofBlockHeader ≤ 4000000 := hsz
    have hflat := count_le_flatten C hs
    have hlen4 : (NetworkMessage.payloadBytes (NetworkMessage.Headers hs : NetworkMessage C)).length ≤ 4000000 := hsize
    have hcount : hs.length < 2 ^ 64 := by
      simp only [NetworkMessage.payloadBytes, HeaderSerializationWrapper.consensusEncode,
        List.length_append] at hlen4
      omega
    have hd := headersWrapper_decode_encode C hC hs hcount hsz []
    rw [List.append_nil] at hd
    exact runPayloadDec_ok _ NetworkMessage.Headers hd
  | SendHeaders =>
    exact envelope_decode_parts hash hHash C magic hmagic' ⟨strBytes "sendheaders"⟩ (by decide) (by decide) (by decide) _ hsize _ rfl
  | GetAddr =>
    exact envelope_decode_parts hash hHash C magic hmagic' ⟨strBytes "getaddr"⟩ (by decide) (by decide) (by decide) _ hsize _ rfl
  | Ping n =>
    refine envelope_decode_parts hash hHash C magic hmagic' ⟨strBytes "ping"⟩ (by decide) (by decide) (by decide) _ hsize _ ?_
    have hn : n < 2 ^ 64 := hwf
    have hd := decodeUN_encodeUN_of_lt 8 n (by norm_num; omega) []
    rw [List.append_nil] at hd
    exact runPayloadDec_ok _ NetworkMessage.Ping hd
  | Pong n =>
    refine envelope_decode_parts hash hHash C magic hmagic' ⟨strBytes "pong"⟩ (by decide) (by decide) (by decide) _ hsize _ ?_
    have hn : n < 2 ^ 64 := hwf
    have hd := decodeUN_encodeUN_of_lt 8 n (by norm_num; omega) []
    rw [List.append_nil] at hd
    exact runPayloadDec_ok _ NetworkMessage.Pong hd
  | MerkleBlock v =>
    refine envelope_decode_parts hash hHash C magic hmagic' ⟨strBytes "merkleblock"⟩ (by decide) (by decide) (by decide) _ hsize _ ?_
    exact runPayloadDec_ok _ NetworkMessage.MerkleBlock (roundTrip_nil hC .merkleblock v)
  | FilterLoad v =>
    refine envelope_decode_parts hash hHash C magic hmagic' ⟨strBytes "filterload"⟩ (by decide) (by decide) (by decide) _ hsize _ ?_
    exact runPayloadDec_ok _ NetworkMessage.FilterLoad (roundTrip_nil hC .filterload v)
  | FilterAdd v =>
    refine envelope_decode_parts hash hHash C magic hmagic' ⟨strBytes "filteradd"⟩ (by decide) (by decide) (by decide) _ hsize _ ?_
    exact runPayloadDec_ok _ NetworkMessage.FilterAdd (roundTrip_nil hC .filteradd v)
  | FilterClear =>
    exact envelope_decode_parts hash hHash C magic hmagic' ⟨strBytes "filterclear"⟩ (by decide) (by decide) (by decide) _ hsize _ rfl
  | GetCFilters v =>
    refine envelope_decode_parts hash hHash C magic hmagic' ⟨strBytes "getcfilters"⟩ (by decide) (by decide) (by decide) _ hsize _ ?_
    exact runPayloadDec_ok _ NetworkMessage.GetCFilters (roundTrip_nil hC .getcfilters v)
  | CFilter v =>
    refine envelope_decode_parts hash hHash C magic hmagic' ⟨strBytes "cfilter"⟩ (by decide) (by decide) (by decide) _ hsize _ ?_
    exact runPayloadDec_ok _ NetworkMessage.CFilter (roundTrip_nil hC .cfilter v)
  | GetCFHeaders v =>
    refine envelope_decode_parts hash hHash C magic hmagic' ⟨strBytes "getcfheaders"⟩ (by decide) (by decide) (by decide) _ hsize _ ?_
    exact runPayloadDec_ok _ NetworkMessage.GetCFHeaders (roundTrip_nil hC .getcfheaders v)
  | CFHeaders v =>
    refine envelope_decode_parts hash hHash C magic hmagic' ⟨strBytes "cfheaders"⟩ (by decide) (by decide) (by decide) _ hsize _ ?_
    exact runPayloadDec_ok _ NetworkMessage.CFHeaders (roundTrip_nil hC .cfheaders v)
  | GetCFCheckpt v =>
    refine envelope_decode_parts hash hHash C magic hmagic' ⟨strBytes "getcfcheckpt"⟩ (by decide) (by decide) (by decide) _ hsize _ ?_
    exact runPayloadDec_ok _ NetworkMessage.GetCFCheckpt (roundTrip_nil hC .getcfcheckpt v)
  | CFCheckpt v =>
    refine envelope_decode_parts hash hHash C magic hmagic' ⟨strBytes "cfcheckpt"⟩ (by decide) (by decide) (by decide) _ hsize _ ?_
    exact runPayloadDec_ok _ NetworkMessage.CFCheckpt (roundTrip_nil hC .cfcheckpt v)
  | Alert bs =>
    refine envelope_decode_parts hash hHash C magic hmagic' ⟨strBytes "alert"⟩ (by decide) (by decide) (by decide) _ hsize _ ?_
    exact runPayloadDec_ok _ NetworkMessage.Alert
      (rfl : ByteBuffer.consensusDecode (ByteBuffer.consensusEncode bs) = .ok (bs, []))
  | Reject v =>
    refine envelope_decode_parts hash hHash C magic hmagic' ⟨strBytes "reject"⟩ (by decide) (by decide) (by decide) _ hsize _ ?_
    exact runPayloadDec_ok _ NetworkMessage.Reject (roundTrip_nil hC .reject v)
  | FeeFilter i =>
    refine envelope_decode_parts hash hHash C magic hmagic' ⟨strBytes "feefilter"⟩ (by decide) (by decide) (by decide) _ hsize _ ?_
    have hi : -(2 ^ 63) ≤ i ∧ i < 2 ^ 63 := hwf
    have hlt : (i % (2 ^ 64)).toNat < 256 ^ 8 := by norm_num; omega
    have hd := decodeUN_encodeUN_of_lt 8 ((i % (2 ^ 64)).toNat) hlt []
    rw [List.append_nil] at hd
    simp only [decodeDispatch_feefilter, runPayloadDec, NetworkMessage.payloadBytes, hd,
      feefilter_value_eq i hi.1 hi.2]
  | WtxidRelay =>
    exact envelope_decode_parts hash hHash C magic hmagic' ⟨strBytes "wtxidrelay"⟩ (by decide) (by decide) (by decide) _ hsize _ rfl
  | AddrV2 v =>
    refine envelope_decode_parts hash hHash C magic hmagic' ⟨strBytes "addrv2"⟩ (by decide) (by decide) (by decide) _ hsize _ ?_
    exact runPayloadDec_ok _ NetworkMessage.AddrV2 (roundTrip_nil hC .addrv2 v)
  | SendAddrV2 =>
    exact envelope_decode_parts hash hHash C magic hmagic' ⟨strBytes "sendaddrv2"⟩ (by decide) (by decide) (by decide) _ hsize _ rfl
  | Unknown c p =>
    have hu : c.s.length ≤ 12 ∧ (∀ b ∈ c.s, 0 < b ∧ b < 128) ∧ c.s ∉ knownCommands := hwf
    refine envelope_decode_parts hash hHash C magic hmagic' _ (fun b hb => (hu.2.1 b hb).1)
      (fun b hb => (hu.2.1 b hb).2) hu.1 _ hsize _ ?_
    exact decodeDispatch_unknown C c hu.2.2 p

/-- Reading n bytes from a buffer shorter than n fails with the
truncated-input error. -/
theorem readBytes_short (n : Nat) (bs : List Byte) (h : bs.length < n) :
    readBytes n bs = .error .unexpectedEof := by
  induction n generalizing bs with
  | zero => omega
  | succ n ih =>
    cases bs with
    | nil => rfl
    | cons b t =>
      have ht : t.length < n := by
        simp at h
        omega
      simp [readBytes, ih t ht]

/-- C1 (counterexample): the round trip fails as universally stated, in two
ways.  The constructible payload Unknown with stored command "verack" and
empty stored payload encodes to the verack envelope, so decoding its
encoding yields the Verack variant, a different payload value.  And the
constructible payload Unknown with the one-character non-ASCII command
U+0080 encodes that command as the UTF-8 bytes [0xC2, 0x80] while decode
rebuilds one character per raw byte, yielding Unknown with the
two-character command [0xC2, 0x80], a different payload value.  The
collaborator bundle and the hash stand-in satisfy the external
contracts. -/
theorem c1_roundtrip_counterexample :
    trivialCollaborators.RoundTrip ∧ HashOK zeroHash ∧
    (RawNetworkMessage.consensusDecode zeroHash trivialCollaborators
      (RawNetworkMessage.consensusEncode zeroHash
        (⟨0, .Unknown ⟨strBytes "verack"⟩ []⟩ : RawNetworkMessage trivialCollaborators))
      = .ok (⟨0, .Verack⟩, [])
    ∧ (NetworkMessage.Verack : NetworkMessage trivialCollaborators)
        ≠ .Unknown ⟨strBytes "verack"⟩ [])
    ∧ (RawNetworkMessage.consensusDecode zeroHash trivialCollaborators
      (RawNetworkMessage.consensusEncode zeroHash
        (⟨0, .Unknown ⟨[0x80]⟩ []⟩ : RawNetworkMessage trivialCollaborators))
      = .ok (⟨0, .Unknown ⟨[0xC2, 0x80]⟩ []⟩, [])
    ∧ (NetworkMessage.Unknown ⟨[0xC2, 0x80]⟩ [] : NetworkMessage trivialCollaborators)
        ≠ .Unknown ⟨[0x80]⟩ []) :=
  ⟨trivialCollaborators_roundTrip, zeroHash_hashOK,
    ⟨rfl, fun h => NetworkMessage.noConfusion h⟩,
    ⟨rfl, by intro h; injection h with h1 h2; exact absurd h1 (by decide)⟩⟩

/-- C1 (witness). -/
theorem c1_roundtrip_witness :
    HashOK zeroHash ∧ trivialCollaborators.RoundTrip ∧
    (7 : Nat) < 2 ^ 32 ∧
    (NetworkMessage.payloadBytes
      (.Ping 5 : NetworkMessage trivialCollaborators)).length ≤ MAX_VEC_SIZE ∧
    WFPayload (.Ping 5 : NetworkMessage trivialCollaborators) ∧
    RawNetworkMessage.consensusDecode zeroHash trivialCollaborators
      (RawNetworkMessage.consensusEncode zeroHash
        (⟨7, .Ping 5⟩ : RawNetworkMessage trivialCollaborators)) = .ok (⟨7, .Ping 5⟩, []) :=
  ⟨zeroHash_hashOK, trivialCollaborators_roundTrip, by decide, by decide,
    ((by decide : (5 : Nat) < 2 ^ 64) :
      WFPayload (.Ping 5 : NetworkMessage trivialCollaborators)),
    rawNetworkMessage_decode_encode zeroHash trivialCollaborators zeroHash_hashOK
      trivialCollaborators_roundTrip ⟨7, .Ping 5⟩ (by decide) (by decide)
      ((by decide : (5 : Nat) < 2 ^ 64) :
        WFPayload (.Ping 5 : NetworkMessage trivialCollaborators))⟩

/-- C2: decoding an envelope whose command is the unrecognized name
"foobar12345" yields the Unknown variant holding that exact name and the
full raw payload bytes; re-encoding the decoded message reproduces the
original serialized bytes exactly, the stored payload bytes being re-emitted
verbatim. -/
theorem unknown_passthrough (hash : List Byte → List Byte) (hHash : HashOK hash)
    (C : Collaborators) (m : Nat) (hm : m < 2 ^ 32) (p : List Byte)
    (hp : p.length ≤ MAX_VEC_SIZE) :
    RawNetworkMessage.consensusDecode hash C
      (encodeUN 4 m ++ CommandString.consensusEncode ⟨strBytes "foobar12345"⟩
        ++ CheckedData.consensusEncode hash p)
      = .ok (⟨m, .Unknown ⟨strBytes "foobar12345"⟩ p⟩, [])
    ∧ RawNetworkMessage.consensusEncode hash
        (⟨m, .Unknown ⟨strBytes "foobar12345"⟩ p⟩ : RawNetworkMessage C)
      = encodeUN 4 m ++ CommandString.consensusEncode ⟨strBytes "foobar12345"⟩
        ++ CheckedData.consensusEncode hash p
    ∧ NetworkMessage.payloadBytes
        (.Unknown ⟨strBytes "foobar12345"⟩ p : NetworkMessage C) = p := by
  refine ⟨?_, rfl, rfl⟩
  rw [List.append_assoc]
  exact envelope_decode_parts hash hHash C m hm ⟨strBytes "foobar12345"⟩ (by decide)
    (by decide) (by decide) p hp _
    (decodeDispatch_unknown C ⟨strBytes "foobar12345"⟩ (by decide) p)

/-- C2 (witness). -/
theorem unknown_passthrough_witness :
    HashOK zeroHash ∧ (2 : Nat) < 2 ^ 32 ∧ ([222, 173] : List Byte).length ≤ MAX_VEC_SIZE ∧
    RawNetworkMessage.consensusDecode zeroHash trivialCollaborators
      (encodeUN 4 2 ++ CommandString.consensusEncode ⟨strBytes "foobar12345"⟩
        ++ CheckedData.consensusEncode zeroHash [222, 173])
      = .ok (⟨2, .Unknown ⟨strBytes "foobar12345"⟩ [222, 173]⟩, []) :=
  ⟨zeroHash_hashOK, by decide, by decide,
    (unknown_passthrough zeroHash zeroHash_hashOK trivialCollaborators 2 (by decide)
      [222, 173] (by decide)).1⟩

/-- C3: the command-string decoder reads exactly 12 bytes and keeps, in
order, every byte whose unsigned value is greater than zero, across the
whole 12 bytes; the test vector for "Andrew" decodes accordingly, and any
buffer of fewer than 12 bytes fails with the truncated-input error. -/
theorem commandString_decode_filter :
    (∀ (bs rest : List Byte), bs.length = 12 →
      CommandString.consensusDecode (bs ++ rest)
        = .ok (⟨bs.filter (fun u => 0 < u)⟩, rest))
    ∧ CommandString.consensusDecode [0x41, 0x6e, 0x64, 0x72, 0x65, 0x77, 0, 0, 0, 0, 0, 0]
        = .ok (⟨strBytes "Andrew"⟩, [])
    ∧ ∀ bs : List Byte, bs.length < 12 →
        CommandString.consensusDecode bs = .error .unexpectedEof := by
  refine ⟨?_, by decide, ?_⟩
  · intro bs rest h
    simp only [CommandString.consensusDecode, readBytes_exact 12 bs rest h]
  · intro bs h
    simp only [CommandString.consensusDecode, readBytes_short 12 bs h]

/-- C3 (witness). -/
theorem commandString_decode_filter_witness :
    ([5, 0, 6, 0, 7, 0, 8, 0, 9, 0, 1, 0] : List Byte).length = 12 ∧
    CommandString.consensusDecode ([5, 0, 6, 0, 7, 0, 8, 0, 9, 0, 1, 0] ++ [42])
      = .ok (⟨[5, 6, 7, 8, 9, 1]⟩, [42]) ∧
    ([1, 2, 3] : List Byte).length < 12 ∧
    CommandString.consensusDecode [1, 2, 3] = .error .unexpectedEof :=
  ⟨by decide,
    by rw [commandString_decode_filter.1 [5, 0, 6, 0, 7, 0, 8, 0, 9, 0, 1, 0] [42] (by decide)]; decide,
    by decide,
    commandString_decode_filter.2.2 [1, 2, 3] (by decide)⟩

/-- C4 (counterexample): the byte 0x80 is negative as a signed byte, so per
the claim it would be dropped from the decoded name; the decoder keeps it,
because the filter compares the unsigned byte value against zero. -/
theorem c4_signed_filter_counterexample :
    CommandString.consensusDecode [0x80, 0, 0, 0, 0, 0, 0, 0, 0, 0, 0, 0]
      = .ok (⟨[0x80]⟩, [])
    ∧ (⟨[0x80]⟩ : CommandString) ≠ ⟨[]⟩ := by
  refine ⟨by decide, by decide⟩

/-- C4 (amended): the decode filter keeps exactly the bytes whose unsigned
value is greater than zero; in particular every byte of value 0x80 or above
is kept in the decoded name, not dropped. -/
theorem commandString_decode_keeps_high_bytes :
    ∀ (bs rest : List Byte), bs.length = 12 →
      CommandString.consensusDecode (bs ++ rest)
        = .ok (⟨bs.filter (fun u => 0 < u)⟩, rest)
      ∧ ∀ b ∈ bs, 128 ≤ b → b ∈ bs.filter (fun u => 0 < u) := by
  intro bs rest h
  refine ⟨by simp only [CommandString.consensusDecode, readBytes_exact 12 bs rest h], ?_⟩
  intro b hb hge
  rw [List.mem_filter]
  exact ⟨hb, by simpa using Nat.lt_of_lt_of_le (by omega) hge⟩

/-- C4 (witness). -/
theorem commandString_decode_keeps_high_bytes_witness :
    ([0x80, 0xFF, 0, 0, 0, 0, 0, 0, 0, 0, 0, 0] : List Byte).length = 12 ∧
    CommandString.consensusDecode ([0x80, 0xFF, 0, 0, 0, 0, 0, 0, 0, 0, 0, 0] ++ [])
      = .ok (⟨[0x80, 0xFF]⟩, []) ∧
    (0x80 : Byte) ∈ ([0x80, 0xFF, 0, 0, 0, 0, 0, 0, 0, 0, 0, 0] : List Byte).filter
      (fun u => 0 < u) :=
  ⟨by decide,
    by rw [(commandString_decode_keeps_high_bytes
        [0x80, 0xFF, 0, 0, 0, 0, 0, 0, 0, 0, 0, 0] [] (by decide)).1]; decide,
    (commandString_decode_keeps_high_bytes [0x80, 0xFF, 0, 0, 0, 0, 0, 0, 0, 0, 0, 0] []
      (by decide)).2 0x80 (by decide) (by decide)⟩

/-- C6: the headers codec.  Encode emits the variable-length count and then
each header encoding followed by exactly one zero byte.  Decode reads the
count, computes count times the header record size with an overflow check,
fails with the oversized-allocation error carrying requested and max when
the product exceeds the global maximum buffer size, decodes count headers
otherwise, and fails with the structural-parse error "Headers message should
not contain transactions" whenever the byte after a header is not zero. -/
theorem headers_codec_spec (C : Collaborators) (hC : C.RoundTrip) :
    (∀ hs : List (C.Ty .blockHeader),
      HeaderSerializationWrapper.consensusEncode C hs
        = VarInt.consensusEncode hs.length
          ++ (hs.map (fun h => C.enc .blockHeader h ++ [0])).flatten)
    ∧ (∀ (count : Nat) (bs : List Byte), count < 2 ^ 64
        → count * C.sizeofBlockHeader < 2 ^ 64
        → count * C.sizeofBlockHeader > MAX_VEC_SIZE
        → HeaderDeserializationWrapper.consensusDecode C (VarInt.consensusEncode count ++ bs)
          = .error (.oversizedVectorAllocation (count * C.sizeofBlockHeader) MAX_VEC_SIZE))
    ∧ (∀ (h : C.Ty .blockHeader) (b : Byte) (junk : List Byte), b ≠ 0
        → C.sizeofBlockHeader ≤ MAX_VEC_SIZE
        → HeaderDeserializationWrapper.consensusDecode C
            (VarInt.consensusEncode 1 ++ (C.enc .blockHeader h ++ b :: junk))
          = .error (.parseFailed "Headers message should not contain transactions"))
    ∧ (∀ (hs : List (C.Ty .blockHeader)) (rest : List Byte), hs.length < 2 ^ 64
        → hs.length * C.sizeofBlockHeader ≤ MAX_VEC_SIZE
        → HeaderDeserializationWrapper.consensusDecode C
            (HeaderSerializationWrapper.consensusEncode C hs ++ rest) = .ok (hs, rest)) := by
  refine ⟨fun hs => rfl, ?_, ?_, fun hs rest h1 h2 => headersWrapper_decode_encode C hC hs h1 h2 rest⟩
  · intro count bs h64 hm64 hgt
    have hv := varint_decode_encode count h64 bs
    have hno : ¬(count * C.sizeofBlockHeader ≥ 2 ^ 64) := by omega
    simp only [HeaderDeserializationWrapper.consensusDecode, hv, if_neg hno, if_pos hgt]
  · intro h b junk hb hsz
    have hv := varint_decode_encode 1 (by norm_num) (C.enc .blockHeader h ++ b :: junk)
    have hd := hC .blockHeader h (b :: junk)
    have hsz4 : C.sizeofBlockHeader ≤ 4000000 := hsz
    have hno : ¬(1 * C.sizeofBlockHeader ≥ 2 ^ 64) := by omega
    have hnm : ¬(1 * C.sizeofBlockHeader > MAX_VEC_SIZE) := by omega
    have hone : (1 : Nat) = 0 + 1 := rfl
    simp only [HeaderDeserializationWrapper.consensusDecode, hv, if_neg hno, if_neg hnm]
    rw [hone]
    simp only [decodeHeadersLoop, hd, readU8, if_pos hb]

/-- C6 (witness). -/
theorem headers_codec_spec_witness :
    trivialCollaborators.RoundTrip ∧
    (50001 : Nat) < 2 ^ 64 ∧
    50001 * trivialCollaborators.sizeofBlockHeader < 2 ^ 64 ∧
    50001 * trivialCollaborators.sizeofBlockHeader > MAX_VEC_SIZE ∧
    HeaderDeserializationWrapper.consensusDecode trivialCollaborators
      (VarInt.consensusEncode 50001 ++ [])
      = .error (.oversizedVectorAllocation
          (50001 * trivialCollaborators.sizeofBlockHeader) MAX_VEC_SIZE) ∧
    (7 : Byte) ≠ 0 ∧
    trivialCollaborators.sizeofBlockHeader ≤ MAX_VEC_SIZE ∧
    HeaderDeserializationWrapper.consensusDecode trivialCollaborators
      (VarInt.consensusEncode 1 ++ (trivialCollaborators.enc .blockHeader () ++ 7 :: []))
      = .error (.parseFailed "Headers message should not contain transactions") ∧
    ([(), ()] : List (trivialCollaborators.Ty .blockHeader)).length < 2 ^ 64 ∧
    ([(), ()] : List (trivialCollaborators.Ty .blockHeader)).length
      * trivialCollaborators.sizeofBlockHeader ≤ MAX_VEC_SIZE ∧
    HeaderDeserializationWrapper.consensusDecode trivialCollaborators
      (HeaderSerializationWrapper.consensusEncode trivialCollaborators [(), ()] ++ [3])
      = .ok ([(), ()], [3]) :=
  ⟨trivialCollaborators_roundTrip, by decide, by decide, by decide,
    (headers_codec_spec trivialCollaborators trivialCollaborators_roundTrip).2.1 50001 []
      (by decide) (by decide) (by decide),
    by decide, by decide,
    (headers_codec_spec trivialCollaborators trivialCollaborators_roundTrip).2.2.1 () 7 []
      (by decide) (by decide),
    by decide, by decide,
    (headers_codec_spec trivialCollaborators trivialCollaborators_roundTrip).2.2.2 [(), ()] [3]
      (by decide) (by decide)⟩

/-- C7: cmd returns the constant "unknown" for the Unknown variant
regardless of the stored command; command returns the literally stored
CommandString for Unknown and, for every other variant, the CommandString
built from the canonical protocol name returned by cmd. -/
theorem cmd_command_spec (C : Collaborators) :
    (∀ (c : CommandString) (p : List Byte),
      NetworkMessage.cmd (.Unknown c p : NetworkMessage C) = strBytes "unknown"
      ∧ NetworkMessage.command (.Unknown c p : NetworkMessage C) = c)
    ∧ ∀ msg : NetworkMessage C, (∀ c p, msg ≠ .Unknown c p) →
        NetworkMessage.command msg = ⟨NetworkMessage.cmd msg⟩ := by
  refine ⟨fun c p => ⟨rfl, rfl⟩, ?_⟩
  intro msg h
  cases msg <;> first | rfl | exact absurd rfl (h _ _)

/-- C7 (witness). -/
theorem cmd_command_spec_witness :
    (∀ (c : CommandString) (p : List Byte),
      (NetworkMessage.Ping 3 : NetworkMessage trivialCollaborators) ≠ .Unknown c p) ∧
    NetworkMessage.command (NetworkMessage.Ping 3 : NetworkMessage trivialCollaborators)
      = ⟨NetworkMessage.cmd (NetworkMessage.Ping 3 : NetworkMessage trivialCollaborators)⟩ ∧
    NetworkMessage.cmd
        (.Unknown ⟨strBytes "wow"⟩ [1] : NetworkMessage trivialCollaborators)
      = strBytes "unknown" ∧
    NetworkMessage.command
        (.Unknown ⟨strBytes "wow"⟩ [1] : NetworkMessage trivialCollaborators)
      = ⟨strBytes "wow"⟩ :=
  ⟨fun _ _ h => NetworkMessage.noConfusion h,
    (cmd_command_spec trivialCollaborators).2 (NetworkMessage.Ping 3)
      (fun _ _ h => NetworkMessage.noConfusion h),
    ((cmd_command_spec trivialCollaborators).1 ⟨strBytes "wow"⟩ [1]).1,
    ((cmd_command_spec trivialCollaborators).1 ⟨strBytes "wow"⟩ [1]).2⟩

/-- C8: each of the content-free variants Verack, SendHeaders, MemPool,
GetAddr, WtxidRelay, FilterClear and SendAddrV2 serializes to an empty
payload body, and the checksummed container around an empty body declares
payload length 0 (its 4-byte length field encodes 0). -/
theorem contentFree_zero_payload (C : Collaborators) (hash : List Byte → List Byte) :
    NetworkMessage.payloadBytes (.Verack : NetworkMessage C) = []
    ∧ NetworkMessage.payloadBytes (.SendHeaders : NetworkMessage C) = []
    ∧ NetworkMessage.payloadBytes (.MemPool : NetworkMessage C) = []
    ∧ NetworkMessage.payloadBytes (.GetAddr : NetworkMessage C) = []
    ∧ NetworkMessage.payloadBytes (.WtxidRelay : NetworkMessage C) = []
    ∧ NetworkMessage.payloadBytes (.FilterClear : NetworkMessage C) = []
    ∧ NetworkMessage.payloadBytes (.SendAddrV2 : NetworkMessage C) = []
    ∧ CheckedData.consensusEncode hash [] = encodeUN 4 0 ++ (hash (hash [])).take 4
    ∧ encodeUN 4 0 = [0, 0, 0, 0] := by
  refine ⟨rfl, rfl, rfl, rfl, rfl, rfl, rfl, ?_, by decide⟩
  simp [CheckedData.consensusEncode]

/-- C9: decoding a RejectReason maps the bytes 0x01, 0x10, 0x11, 0x12,
0x40, 0x41, 0x42, 0x43 to Malformed, Invalid, Obsolete, Duplicate,
NonStandard, Dust, Fee, Checkpoint respectively, fails with the
structural-parse error "unknown reject code" for every other byte value,
and encoding writes exactly the one discriminant byte. -/
theorem rejectReason_codec_spec :
    (∀ rest : List Byte,
      RejectReason.consensusDecode (0x01 :: rest) = .ok (.Malformed, rest)
      ∧ RejectReason.consensusDecode (0x10 :: rest) = .ok (.Invalid, rest)
      ∧ RejectReason.consensusDecode (0x11 :: rest) = .ok (.Obsolete, rest)
      ∧ RejectReason.consensusDecode (0x12 :: rest) = .ok (.Duplicate, rest)
      ∧ RejectReason.consensusDecode (0x40 :: rest) = .ok (.NonStandard, rest)
      ∧ RejectReason.consensusDecode (0x41 :: rest) = .ok (.Dust, rest)
      ∧ RejectReason.consensusDecode (0x42 :: rest) = .ok (.Fee, rest)
      ∧ RejectReason.consensusDecode (0x43 :: rest) = .ok (.Checkpoint, rest))
    ∧ (∀ (b : Byte) (rest : List Byte), b < 256
        → b ∉ ([0x01, 0x10, 0x11, 0x12, 0x40, 0x41, 0x42, 0x43] : List Byte)
        → RejectReason.consensusDecode (b :: rest)
          = .error (.parseFailed "unknown reject code"))
    ∧ ∀ r : RejectReason, RejectReason.consensusEncode r = [r.toByte] := by
  refine ⟨fun rest => ⟨rfl, rfl, rfl, rfl, rfl, rfl, rfl, rfl⟩, ?_, fun r => rfl⟩
  intro b rest hlt hmem
  simp only [List.mem_cons, List.not_mem_nil, or_false, not_or] at hmem
  obtain ⟨h1, h2, h3, h4, h5, h6, h7, h8⟩ := hmem
  simp only [RejectReason.consensusDecode, readU8, if_neg h1, if_neg h2, if_neg h3,
    if_neg h4, if_neg h5, if_neg h6, if_neg h7, if_neg h8]

/-- C9 (witness). -/
theorem rejectReason_codec_spec_witness :
    (0x05 : Byte) < 256 ∧
    (0x05 : Byte) ∉ ([0x01, 0x10, 0x11, 0x12, 0x40, 0x41, 0x42, 0x43] : List Byte) ∧
    RejectReason.consensusDecode (0x05 :: [9])
      = .error (.parseFailed "unknown reject code") :=
  ⟨by decide, by decide, rejectReason_codec_spec.2.1 0x05 [9] (by decide) (by decide)⟩

/-- C10: for every NetworkMessage value, the string returned by cmd has
length at most 12, so the CommandString construction inside command always
succeeds and its panic branch is unreachable. -/
theorem cmd_valid_command (C : Collaborators) :
    ∀ msg : NetworkMessage C,
      CommandString.tryFrom (NetworkMessage.cmd msg) = .ok ⟨NetworkMessage.cmd msg⟩
      ∧ (NetworkMessage.cmd msg).length ≤ 12 := by
  intro msg
  have h : CommandString.tryFrom (NetworkMessage.cmd msg) = .ok ⟨NetworkMessage.cmd msg⟩ := by
    cases msg <;> rfl
  refine ⟨h, ?_⟩
  by_contra hlen
  have he : CommandString.tryFrom (NetworkMessage.cmd msg)
      = .error (NetworkMessage.cmd msg) := by
    unfold CommandString.tryFrom
    rw [if_pos (by omega)]
  rw [he] at h
  exact Except.noConfusion h
